import Mathlib

/-!
# Verification of the supermarket dashboard core (`supermarket6.py`)

Shallow embedding of the data model and the filter / profiling /
aggregation pipeline of the single-file dashboard, together with proofs
of the specification's testable properties.

Modelling conventions:
* A cell value is a string, an integer, a calendar date, or null
  (pandas `NaN`/`NaT`).  Numeric cells are modelled as integers; none of
  the verified properties depends on fractional values.
* A row is an association list from column name to value; reading a
  column that a row does not carry yields null.
* A `Dataset` is the column list together with the row list, in order.
-/

inductive Value where
  | vstr (s : String)
  | vnum (n : Int)
  | vdate (y m d : Nat)
  | vnull
  deriving DecidableEq, Repr

abbrev Row := List (String × Value)

/-- Read the value of column `c` in row `r` (null when absent). -/
def getV (r : Row) (c : String) : Value :=
  (List.lookup c r).getD Value.vnull

structure Dataset where
  columns : List String
  rows : List Row
  deriving Repr

/-! ## String keyword matching (the role resolver's substring test) -/

/-- `leadsWith pat l`: `pat` occurs at the head of `l`. -/
def leadsWith : List Char → List Char → Bool
  | [], _ => true
  | _ :: _, [] => false
  | a :: as, b :: bs => a = b && leadsWith as bs

/-- `containsSeq pat l`: `pat` occurs contiguously somewhere in `l`. -/
def containsSeq (pat : List Char) : List Char → Bool
  | [] => pat.isEmpty
  | b :: bs => leadsWith pat (b :: bs) || containsSeq pat bs

/-- Per-character lowercasing (`str.lower()`; the column names matched
here are ASCII, where the two agree). -/
def lowerChars (l : List Char) : List Char :=
  l.map Char.toLower

/-- Python's `kw in col.lower()`: case-insensitive substring test. -/
def containsKw (kw : String) (col : String) : Bool :=
  containsSeq kw.toList (lowerChars col.toList)

/-! ## Filter engine

`filter_options` maps a column either to the list of selected
categorical values (`isin`) or to a closed date range
(`to_datetime(col) >= start and <= end`). -/

inductive FilterPred where
  | cat (allowed : List Value)
  | dateRange (lo hi : Nat × Nat × Nat)
  deriving DecidableEq, Repr

abbrev FilterSpec := List (String × FilterPred)

/-- Lexicographic order on `(year, month, day)` triples, the order
`pd.to_datetime` comparisons induce. -/
def dateLe : Nat × Nat × Nat → Nat × Nat × Nat → Bool
  | (y1, m1, d1), (y2, m2, d2) =>
    decide (y1 < y2) ||
      (decide (y1 = y2) &&
        (decide (m1 < m2) || (decide (m1 = m2) && decide (d1 ≤ d2))))

/-- Coerce a cell to a date, as `pd.to_datetime` does on a date cell;
non-date cells yield none (null stays `NaT`, which fails both bound
comparisons). -/
def toDateTriple : Value → Option (Nat × Nat × Nat)
  | .vdate y m d => some (y, m, d)
  | _ => none

/-- One filter predicate applied to one row, at column `c`. -/
def satisfies (r : Row) (c : String) : FilterPred → Bool
  | .cat allowed => allowed.contains (getV r c)
  | .dateRange lo hi =>
    match toDateTriple (getV r c) with
    | some dt => dateLe lo dt && dateLe dt hi
    | none => false

/-- The source's filter loop: `for col, val in filter_options.items():
df_filtered = df_filtered[...]`, one `List.filter` per spec entry. -/
def filterEngine (rows : List Row) (spec : FilterSpec) : List Row :=
  spec.foldl (fun acc cp => acc.filter (fun r => satisfies r cp.1 cp.2)) rows

/-- A row passes the whole spec: the conjunction over all entries. -/
def passesAll (spec : FilterSpec) (r : Row) : Bool :=
  spec.all (fun cp => satisfies r cp.1 cp.2)

/-! ## Schema prober

`preview_df = pd.read_excel(uploaded_file, nrows=100)`, then per column:
datetime dtype → date; numeric dtype → numeric; `nunique() < 20` →
categorical; otherwise the column gets no filter (unclassified).

Dtype inference is modelled as pandas infers it for a spreadsheet read:
a column is datetime-typed when it has at least one date cell and every
cell is a date or null; numeric-typed when it is nonempty and every cell
is a number or null (an all-null column reads as float `NaN`s); an empty
column reads as object dtype (neither). -/

def isDateV : Value → Bool
  | .vdate _ _ _ => true
  | _ => false

def isNumV : Value → Bool
  | .vnum _ => true
  | _ => false

def isNullV : Value → Bool
  | .vnull => true
  | _ => false

/-- The first-100-rows sample the prober works on (`nrows=100`). -/
def sampleRows (d : Dataset) : List Row :=
  d.rows.take 100

/-- The cells of column `c` over a list of rows. -/
def colValues (rows : List Row) (c : String) : List Value :=
  rows.map (fun r => getV r c)

def isDatetimeDtype (vs : List Value) : Bool :=
  vs.any isDateV && vs.all (fun v => isDateV v || isNullV v)

def isNumericDtype (vs : List Value) : Bool :=
  !vs.isEmpty && vs.all (fun v => isNumV v || isNullV v)

/-- The distinct non-null cells of a column (`Series.nunique` counts
distinct values excluding nulls). -/
def distinctNonNull (vs : List Value) : List Value :=
  (vs.filter (fun v => !isNullV v)).dedup

inductive ColKind where
  | date
  | numeric
  | categorical
  | unclassified
  deriving DecidableEq, Repr

/-- The prober's branch per column, in the source's priority order. -/
def classify (rows : List Row) (c : String) : ColKind :=
  let vs := colValues rows c
  if isDatetimeDtype vs then .date
  else if isNumericDtype vs then .numeric
  else if (distinctNonNull vs).length < 20 then .categorical
  else .unclassified

/-- Column classification of a dataset, over the 100-row sample. -/
def probeKind (d : Dataset) (c : String) : ColKind :=
  classify (sampleRows d) c

/-- `categorical_cols`, in column order. -/
def categoricalColsOf (d : Dataset) : List String :=
  d.columns.filter (fun c => decide (probeKind d c = ColKind.categorical))

/-- `date_cols`, in column order. -/
def dateColsOf (d : Dataset) : List String :=
  d.columns.filter (fun c => decide (probeKind d c = ColKind.date))

/-- The sidebar's filter construction: a categorical filter for each of
the first five categorical columns (holding the user's multiselect
choice), then a date-range filter on the first date column when the
date-input returned a two-sided range. -/
def buildFilterSpec (d : Dataset) (sel : String → List Value)
    (dr : Option ((Nat × Nat × Nat) × (Nat × Nat × Nat))) : FilterSpec :=
  ((categoricalColsOf d).take 5).map (fun c => (c, FilterPred.cat (sel c)))
    ++ (match dateColsOf d, dr with
        | dc :: _, some (lo, hi) => [(dc, FilterPred.dateRange lo hi)]
        | _, _ => [])

/-! ## Role resolver and aggregation pipeline

Role columns are found by case-insensitive substring match over the full
dataset's column names. -/

def salesCols (cols : List String) : List String :=
  cols.filter (fun c => containsKw "sales" c || containsKw "total" c)

def qtyCols (cols : List String) : List String :=
  cols.filter (fun c => containsKw "qty" c || containsKw "quantity" c)

def categoryCols (cols : List String) : List String :=
  cols.filter (fun c => containsKw "product" c || containsKw "category" c)

def dateNameCols (cols : List String) : List String :=
  cols.filter (fun c => containsKw "date" c)

/-- Numeric reading of a cell for summation; nulls contribute nothing
(`Series.sum` skips `NaN`). -/
def numOf : Value → Int
  | .vnum n => n
  | _ => 0

/-- `df_filtered[col].sum()` over a numeric column. -/
def sumCol (rows : List Row) (c : String) : Int :=
  rows.foldl (fun acc r => acc + numOf (getV r c)) 0

/-- `total_sales = df_filtered[sales_cols[0]].sum() if sales_cols else 0`. -/
def totalSales (cols : List String) (rows : List Row) : Int :=
  match salesCols cols with
  | [] => 0
  | s :: _ => sumCol rows s

/-- `total_qty = df_filtered[qty_cols[0]].sum() if qty_cols else 0`. -/
def totalQty (cols : List String) (rows : List Row) : Int :=
  match qtyCols cols with
  | [] => 0
  | q :: _ => sumCol rows q

/-- `to_period("M")` of a date cell: the month ordinal `12*year + (month-1)`;
non-date cells have no period. -/
def monthOfValue : Value → Option Nat
  | .vdate y m _ => some (12 * y + (m - 1))
  | _ => none

/-- The month ordinals occurring in a column (rows without a parseable
date carry no period and are dropped by the groupby). -/
def monthsIn (rows : List Row) (dcol : String) : List Nat :=
  (rows.filterMap (fun r => monthOfValue (getV r dcol))).dedup

/-- The per-month sum of the sales column
(`df_filtered.groupby("Month")[sales_cols[0]].sum()`, one group). -/
def monthSum (rows : List Row) (dcol scol : String) (p : Nat) : Int :=
  sumCol (rows.filter (fun r => decide (monthOfValue (getV r dcol) = some p)))
    scol

/-- The grouped monthly series: pandas `groupby` sorts the group keys,
so the months come out in ascending (chronological) order. -/
def monthlyTrend (rows : List Row) (dcol scol : String) : List (Nat × Int) :=
  (List.insertionSort (· ≤ ·) (monthsIn rows dcol)).map
    (fun p => (p, monthSum rows dcol scol p))

/-- Chart 1's data: built only when a sales column resolves and some
column name contains "date" (that first such column is the date axis);
otherwise the chart is the empty line `px.line()`. -/
def monthlyChart (cols : List String) (rows : List Row) : List (Nat × Int) :=
  match salesCols cols, dateNameCols cols with
  | s :: _, dcol :: _ => monthlyTrend rows dcol s
  | _, _ => []

/-! ## Top products (`groupby(category)[qty].sum().nlargest(10)`) -/

/-- Total order on cell values used for pandas' group-key sort (within a
real categorical column all keys share one constructor, so only the
same-constructor branches are exercised). -/
def valRank : Value → Nat
  | .vnull => 0
  | .vnum _ => 1
  | .vstr _ => 2
  | .vdate _ _ _ => 3

def charListLe : List Char → List Char → Bool
  | [], _ => true
  | _ :: _, [] => false
  | a :: as, b :: bs => if a = b then charListLe as bs else decide (a < b)

def valLe : Value → Value → Bool
  | .vnum a, .vnum b => decide (a ≤ b)
  | .vstr a, .vstr b => charListLe a.toList b.toList
  | .vdate y1 m1 d1, .vdate y2 m2 d2 => dateLe (y1, m1, d1) (y2, m2, d2)
  | a, b => decide (valRank a ≤ valRank b)

/-- The group keys of `groupby(c)`: distinct non-null cells of the
column, sorted ascending (pandas sorts group keys by default). -/
def groupKeys (rows : List Row) (c : String) : List Value :=
  List.insertionSort (fun a b => valLe a b = true)
    (distinctNonNull (colValues rows c))

/-- The sum of column `q` over the rows of group `k`. -/
def groupSum (rows : List Row) (c q : String) (k : Value) : Int :=
  sumCol (rows.filter (fun r => decide (getV r c = k))) q

/-- The grouped series `groupby(c)[q].sum()`: key-sorted. -/
def groupBySum (rows : List Row) (c q : String) : List (Value × Int) :=
  (groupKeys rows c).map (fun k => (k, groupSum rows c q k))

/-- Descending-by-sum order on series entries. -/
def descRel : Value × Int → Value × Int → Prop :=
  fun a b => b.2 ≤ a.2

instance : DecidableRel descRel :=
  fun a b => inferInstanceAs (Decidable (b.2 ≤ a.2))

instance : IsTotal (Value × Int) descRel :=
  ⟨fun a b => le_total b.2 a.2⟩

instance : IsTrans (Value × Int) descRel :=
  ⟨fun _ _ _ hab hbc => le_trans hbc hab⟩

/-- Stable descending sort by the summed value. -/
def sortDesc (l : List (Value × Int)) : List (Value × Int) :=
  List.insertionSort descRel l

/-- `Series.nlargest(n)`: the `n` largest entries, descending, ties kept
by position in the series (`keep="first"`). -/
def nlargest (n : Nat) (l : List (Value × Int)) : List (Value × Int) :=
  (sortDesc l).take n

/-- Chart 2's data: `groupby(category_cols[0])[qty_cols[0]].sum()
.nlargest(10)` when both roles resolve, else the empty bar chart. -/
def topProducts (cols : List String) (rows : List Row) : List (Value × Int) :=
  match categoryCols cols, qtyCols cols with
  | c :: _, q :: _ => nlargest 10 (groupBySum rows c q)
  | _, _ => []

/-! ## CSV export (`df_filtered.to_csv(index=False)`)

Before the export, chart 1 (when it is drawn) has already added the
`"Month"` period column to `df_filtered` in place, so the downloaded
file carries it. -/

def exportFileName : String := "filtered_data.csv"

def pad2 (n : Nat) : String :=
  if n < 10 then "0" ++ toString n else toString n

/-- `str(Period)`: `"YYYY-MM"` from the month ordinal. -/
def periodStr (p : Nat) : String :=
  toString (p / 12) ++ "-" ++ pad2 (p % 12 + 1)

/-- CSV rendering of a date cell (midnight timestamps print date-only). -/
def dateStr (y m d : Nat) : String :=
  toString y ++ "-" ++ pad2 m ++ "-" ++ pad2 d

/-- The field must be quoted: it holds a comma, a quote or a newline. -/
def needsQuote (s : String) : Bool :=
  s.toList.contains ',' || s.toList.contains '"' || s.toList.contains '\n'

/-- Double every quote character in the field. -/
def doubleQuotes (s : String) : String :=
  String.mk ((s.toList.map (fun ch => if ch = '"' then ['"', '"'] else [ch])).flatten)

/-- Minimal CSV quoting: fields holding a comma, quote or newline are
quoted, inner quotes doubled. -/
def csvEscape (s : String) : String :=
  if needsQuote s then "\"" ++ doubleQuotes s ++ "\"" else s

/-- CSV cell text of a value (`na_rep` default: nulls print empty). -/
def renderValue : Value → String
  | .vstr s => csvEscape s
  | .vnum n => toString n
  | .vdate y m d => dateStr y m d
  | .vnull => ""

def csvLine (cells : List String) : String :=
  String.intercalate "," cells

/-- `to_csv(index=False)`: header line of column names, then one line
per row, no index column, trailing newline. -/
def toCsv (cols : List String) (rows : List Row) : String :=
  String.intercalate "\n"
      (csvLine (cols.map csvEscape)
        :: rows.map (fun r => csvLine (cols.map (fun c => renderValue (getV r c)))))
    ++ "\n"

/-- Assign a column in a row (replace in place when present, else
append at the end), as pandas column assignment does. -/
def setV : Row → String → Value → Row
  | [], c, v => [(c, v)]
  | (k, w) :: r, c, v =>
    if k = c then (c, v) :: r else (k, w) :: setV r c v

/-- `df_filtered["Month"] = pd.to_datetime(df_filtered[dcol]).dt.to_period("M")`
on one row: the period as its display string, null when the date is null. -/
def addMonth (dcol : String) (r : Row) : Row :=
  setV r "Month"
    (match monthOfValue (getV r dcol) with
     | some p => Value.vstr (periodStr p)
     | none => Value.vnull)

/-- The frame behind the download button: the filtered rows, with the
`"Month"` column added exactly when chart 1's branch ran (a sales column
resolved and some column name contains "date"). -/
def exportColumnsRows (d : Dataset) (spec : FilterSpec) :
    List String × List Row :=
  let fr := filterEngine d.rows spec
  match salesCols d.columns, dateNameCols d.columns with
  | _ :: _, dcol :: _ =>
    ((if d.columns.contains "Month" then d.columns else d.columns ++ ["Month"]),
      fr.map (addMonth dcol))
  | _, _ => (d.columns, fr)

/-- The text of the downloaded `filtered_data.csv`. -/
def exportCsv (d : Dataset) (spec : FilterSpec) : String :=
  toCsv (exportColumnsRows d spec).1 (exportColumnsRows d spec).2

/-! ## Concrete example data (used by the closed-form checks) -/

/-- Scenario-1 style data: three January and two February rows with
totals 10, 20, 30 and 5, 15. -/
def rowsS1 : List Row :=
  [ [("Date", Value.vdate 2024 1 5), ("Total", Value.vnum 10)],
    [("Date", Value.vdate 2024 1 9), ("Total", Value.vnum 20)],
    [("Date", Value.vdate 2024 1 20), ("Total", Value.vnum 30)],
    [("Date", Value.vdate 2024 2 3), ("Total", Value.vnum 5)],
    [("Date", Value.vdate 2024 2 7), ("Total", Value.vnum 15)] ]

/-- A one-row dataset with a date-named and a sales-named column. -/
def dsExport : Dataset :=
  ⟨["Date", "Total"], [[("Date", Value.vdate 2024 1 5), ("Total", Value.vnum 10)]]⟩

/-- Eleven product groups: the tied groups "Z" (first in row order) and
"A" (first in key order) hold 5 each; nine others hold 10 each. -/
def cexRows : List Row :=
  [ [("Product", Value.vstr "Z"), ("Qty", Value.vnum 5)],
    [("Product", Value.vstr "A"), ("Qty", Value.vnum 5)],
    [("Product", Value.vstr "B"), ("Qty", Value.vnum 10)],
    [("Product", Value.vstr "C"), ("Qty", Value.vnum 10)],
    [("Product", Value.vstr "D"), ("Qty", Value.vnum 10)],
    [("Product", Value.vstr "E"), ("Qty", Value.vnum 10)],
    [("Product", Value.vstr "F"), ("Qty", Value.vnum 10)],
    [("Product", Value.vstr "G"), ("Qty", Value.vnum 10)],
    [("Product", Value.vstr "H"), ("Qty", Value.vnum 10)],
    [("Product", Value.vstr "I"), ("Qty", Value.vnum 10)],
    [("Product", Value.vstr "J"), ("Qty", Value.vnum 10)] ]

def cexCols : List String := ["Product", "Qty"]

/-- Twelve distinct products with distinct quantities. -/
def rows12 : List Row :=
  (List.range 12).map (fun i =>
    [("Product", Value.vstr (String.mk [Char.ofNat (65 + i)])),
     ("Qty", Value.vnum (Int.ofNat i + 1))])

/-- One text column holding 19 distinct values over 19 rows. -/
def ds19 : Dataset :=
  ⟨["v"], (List.range 19).map (fun i => [("v", Value.vstr (String.mk [Char.ofNat (65 + i)]))])⟩

/-- One text column holding 20 distinct values over 20 rows. -/
def ds20 : Dataset :=
  ⟨["v"], (List.range 20).map (fun i => [("v", Value.vstr (String.mk [Char.ofNat (65 + i)]))])⟩

/-- Six text columns, all categorical; only the first five get filters. -/
def ds6 : Dataset :=
  ⟨["A", "B", "C", "D", "E", "F"],
    [[("A", Value.vstr "a"), ("B", Value.vstr "b"), ("C", Value.vstr "c"),
      ("D", Value.vstr "d"), ("E", Value.vstr "e"), ("F", Value.vstr "f")]]⟩
theorem filterEngine_eq_filter (rows : List Row) (spec : FilterSpec) :
    filterEngine rows spec = rows.filter (passesAll spec) := by
  induction spec generalizing rows with
  | nil =>
    have h : passesAll [] = fun _ : Row => true := rfl
    simp [filterEngine, h, List.filter_true]
  | cons cp spec ih =>
    show filterEngine (rows.filter fun r => satisfies r cp.1 cp.2) spec = _
    rw [ih, List.filter_filter]
    apply List.filter_congr
    intro r _
    simp [passesAll, Bool.and_comm]

/-! ## Proofs about the filter engine -/

/-- **C1.** The filter engine returns exactly the rows of the input that
satisfy every predicate of the spec: soundness, completeness, and the
conjunction of predicates across columns; the result is moreover a
sublist of the input (original order, no duplication). -/
theorem filterEngine_exact (rows : List Row) (spec : FilterSpec) :
    (∀ r : Row, r ∈ filterEngine rows spec ↔
        r ∈ rows ∧ ∀ cp ∈ spec, satisfies r cp.1 cp.2 = true)
      ∧ (filterEngine rows spec).Sublist rows := by
  constructor
  · intro r
    rw [filterEngine_eq_filter]
    simp [passesAll]
  · rw [filterEngine_eq_filter]
    exact List.filter_sublist rows

/-- **C9.** Applying the filter engine twice with the same spec equals
applying it once. -/
theorem filterEngine_idempotent (rows : List Row) (spec : FilterSpec) :
    filterEngine (filterEngine rows spec) spec = filterEngine rows spec := by
  rw [filterEngine_eq_filter, filterEngine_eq_filter, List.filter_filter]
  apply List.filter_congr
  intro r hr
  cases h : passesAll spec r <;> simp [h]

/-- **C5.** A categorical filter whose selected value set is empty
excludes every row: whenever the spec contains such an entry, the
filtered view is empty (in particular when it is the only filter). -/
theorem empty_selection_empty_result (rows : List Row) (spec : FilterSpec)
    (c : String) (h : (c, FilterPred.cat []) ∈ spec) :
    filterEngine rows spec = [] := by
  rw [filterEngine_eq_filter]
  apply List.filter_eq_nil_iff.mpr
  intro r _
  simp only [passesAll, List.all_eq_true, not_forall]
  refine ⟨(c, FilterPred.cat []), h, ?_⟩
  simp [satisfies, List.contains]

theorem empty_selection_empty_result_witness :
    filterEngine [[("City", Value.vstr "Oslo")]]
        [("City", FilterPred.cat [])] = [] :=
  empty_selection_empty_result _ _ "City" (by decide)


/-! ## Schema prober proofs -/

/-- **C3 (counterexample).** On a dataset with zero rows the prober does
not leave the column unclassified: it classifies it as categorical. -/
theorem empty_sample_not_unclassified :
    probeKind ⟨["A"], []⟩ "A" ≠ ColKind.unclassified
      ∧ probeKind ⟨["A"], []⟩ "A" = ColKind.categorical := by
  decide

/-- **C3 (amended).** For a sample with zero rows, every column is
classified as categorical (its empty distinct-value set satisfies
`nunique < 20`), so each column becomes a filter option with an empty
option list; classification is total (no crash). -/
theorem empty_sample_all_categorical (cols : List String) (c : String) :
    probeKind ⟨cols, []⟩ c = ColKind.categorical
      ∧ distinctNonNull (colValues (sampleRows ⟨cols, []⟩) c) = [] :=
  ⟨rfl, rfl⟩

/-- **C4.** For a column whose sample is neither datetime- nor
numeric-typed, the prober classifies it as categorical exactly when the
number of distinct non-null sample values is strictly below 20, and as
unclassified exactly when it is at least 20. -/
theorem categorical_boundary (d : Dataset) (c : String)
    (hd : isDatetimeDtype (colValues (sampleRows d) c) = false)
    (hn : isNumericDtype (colValues (sampleRows d) c) = false) :
    (probeKind d c = ColKind.categorical ↔
        (distinctNonNull (colValues (sampleRows d) c)).length < 20)
      ∧ (probeKind d c = ColKind.unclassified ↔
        20 ≤ (distinctNonNull (colValues (sampleRows d) c)).length) := by
  have hk : probeKind d c =
      if (distinctNonNull (colValues (sampleRows d) c)).length < 20 then
        ColKind.categorical
      else ColKind.unclassified := by
    simp [probeKind, classify, hd, hn]
  rw [hk]
  by_cases h : (distinctNonNull (colValues (sampleRows d) c)).length < 20
  all_goals simp [h]
  all_goals omega

/-- The boundary at concrete inputs: 19 distinct sample values are
categorical, 20 are unclassified. -/
theorem categorical_boundary_witness :
    isDatetimeDtype (colValues (sampleRows ds19) "v") = false
      ∧ isNumericDtype (colValues (sampleRows ds19) "v") = false
      ∧ probeKind ds19 "v" = ColKind.categorical
      ∧ probeKind ds20 "v" = ColKind.unclassified :=
  ⟨by decide, by decide,
    (categorical_boundary ds19 "v" (by decide) (by decide)).1.mpr (by decide),
    (categorical_boundary ds20 "v" (by decide) (by decide)).2.mpr (by decide)⟩

/-! ## Aggregation pipeline proofs -/

/-- **C6.** When no column name contains "sales" or "total"
(case-insensitively), the Total Sales KPI is 0 and the monthly trend
chart data is empty; the quantity KPI still degrades independently to
its own rule (sum of the first quantity column when one resolves). -/
theorem missing_sales_defaults (cols : List String) (rows : List Row)
    (h : ∀ c ∈ cols, containsKw "sales" c = false ∧ containsKw "total" c = false) :
    totalSales cols rows = 0
      ∧ monthlyChart cols rows = []
      ∧ ∀ q qt, qtyCols cols = q :: qt → totalQty cols rows = sumCol rows q := by
  have hs : salesCols cols = [] := by
    apply List.filter_eq_nil_iff.mpr
    intro c hc
    simp [(h c hc).1, (h c hc).2]
  refine ⟨?_, ?_, ?_⟩
  · simp [totalSales, hs]
  · unfold monthlyChart
    rw [hs]
  · intro q qt hq
    simp [totalQty, hq]

theorem missing_sales_defaults_witness :
    totalSales ["Date", "Qty"] rowsS1 = 0
      ∧ monthlyChart ["Date", "Qty"] rowsS1 = []
      ∧ totalQty ["Date", "Qty"] rowsS1 = sumCol rowsS1 "Qty" :=
  ⟨(missing_sales_defaults ["Date", "Qty"] rowsS1 (by decide)).1,
    (missing_sales_defaults ["Date", "Qty"] rowsS1 (by decide)).2.1,
    (missing_sales_defaults ["Date", "Qty"] rowsS1 (by decide)).2.2 "Qty" [] (by decide)⟩

/-- **C7.** The monthly trend is empty when no sales column or no
date-named column resolves; otherwise it is the per-month grouping of
the filtered rows by the first date-named column: strictly increasing
(chronological) month keys, and a pair belongs to the series exactly
when its month occurs in that column and its value is that month's sum
of the first sales column. -/
theorem monthly_trend_correct (cols : List String) (rows : List Row) :
    ((salesCols cols = [] ∨ dateNameCols cols = []) → monthlyChart cols rows = [])
      ∧ ∀ s st dcol dt, salesCols cols = s :: st → dateNameCols cols = dcol :: dt →
          monthlyChart cols rows = monthlyTrend rows dcol s
            ∧ (monthlyChart cols rows).Pairwise (fun a b => a.1 < b.1)
            ∧ ∀ pr : Nat × Int, pr ∈ monthlyChart cols rows ↔
                (pr.1 ∈ rows.filterMap (fun r => monthOfValue (getV r dcol))
                  ∧ pr.2 = monthSum rows dcol s pr.1) := by
  constructor
  · intro h
    unfold monthlyChart
    rcases h with h | h <;> rw [h]
    cases salesCols cols <;> rfl
  · intro s st dcol dt hs hdn
    have hchart : monthlyChart cols rows = monthlyTrend rows dcol s := by
      unfold monthlyChart
      rw [hs, hdn]
    have hperm := List.perm_insertionSort (α := ℕ) (· ≤ ·) (monthsIn rows dcol)
    have hnodup : (List.insertionSort (· ≤ ·) (monthsIn rows dcol)).Nodup :=
      hperm.nodup_iff.mpr (List.nodup_dedup _)
    have hsorted : (List.insertionSort (· ≤ ·) (monthsIn rows dcol)).Sorted (· ≤ ·) :=
      List.sorted_insertionSort _ _
    refine ⟨hchart, ?_, ?_⟩
    · rw [hchart]
      unfold monthlyTrend
      rw [List.pairwise_map]
      exact (hsorted.and hnodup).imp (fun h => lt_of_le_of_ne h.1 h.2)
    · intro pr
      rw [hchart]
      unfold monthlyTrend
      constructor
      · intro hpr
        rcases List.mem_map.mp hpr with ⟨p, hp, rfl⟩
        have : p ∈ monthsIn rows dcol := hperm.mem_iff.mp hp
        exact ⟨List.mem_dedup.mp this, rfl⟩
      · rintro ⟨h1, h2⟩
        apply List.mem_map.mpr
        refine ⟨pr.1, hperm.mem_iff.mpr (List.mem_dedup.mpr h1), ?_⟩
        exact Prod.ext rfl h2.symm

/-- Scenario 1 at concrete data: with sales column "Total" and date
column "Date", the trend is sorted by month and contains exactly the
months of the data with their sums. -/
theorem monthly_trend_correct_witness :
    monthlyChart ["Date", "Total"] rowsS1 = monthlyTrend rowsS1 "Date" "Total"
      ∧ (monthlyChart ["Date", "Total"] rowsS1).Pairwise (fun a b => a.1 < b.1)
      ∧ ((24288, (60 : Int)) ∈ monthlyChart ["Date", "Total"] rowsS1 ↔
          (24288 ∈ rowsS1.filterMap (fun r => monthOfValue (getV r "Date"))
            ∧ (60 : Int) = monthSum rowsS1 "Date" "Total" 24288)) :=
  ⟨((monthly_trend_correct ["Date", "Total"] rowsS1).2 "Total" [] "Date" []
      (by decide) (by decide)).1,
    ((monthly_trend_correct ["Date", "Total"] rowsS1).2 "Total" [] "Date" []
      (by decide) (by decide)).2.1,
    ((monthly_trend_correct ["Date", "Total"] rowsS1).2 "Total" [] "Date" []
      (by decide) (by decide)).2.2 (24288, 60)⟩

/-! ## Top products: stability of the descending sort

`nlargest` keeps ties by series position (`keep="first"`); the stable
insertion sort preserves, for every fixed sum value, the subsequence of
entries carrying that value. -/

theorem filter_orderedInsert_stable (v : Int) (a : Value × Int)
    (l : List (Value × Int)) :
    (List.orderedInsert descRel a l).filter (fun pr => decide (pr.2 = v)) =
      if a.2 = v then a :: l.filter (fun pr => decide (pr.2 = v))
      else l.filter (fun pr => decide (pr.2 = v)) := by
  induction l with
  | nil =>
    by_cases h : a.2 = v <;> simp [List.orderedInsert, List.filter, h]
  | cons b l ih =>
    by_cases hab : descRel a b
    · have hstep : List.orderedInsert descRel a (b :: l) = a :: b :: l := by
        simp [List.orderedInsert, hab]
      rw [hstep]
      by_cases h : a.2 = v <;> simp [List.filter_cons, h]
    · have hb : a.2 < b.2 := lt_of_not_le hab
      have hstep : List.orderedInsert descRel a (b :: l) =
          b :: List.orderedInsert descRel a l := by
        simp [List.orderedInsert, hab]
      rw [hstep]
      by_cases h : a.2 = v
      · have hbv : ¬(b.2 = v) := by omega
        simp [List.filter_cons, h, hbv, ih]
      · by_cases hbv : b.2 = v <;> simp [List.filter_cons, h, hbv, ih]

theorem sortDesc_stable (v : Int) (l : List (Value × Int)) :
    (sortDesc l).filter (fun pr => decide (pr.2 = v)) =
      l.filter (fun pr => decide (pr.2 = v)) := by
  induction l with
  | nil => rfl
  | cons a l ih =>
    show (List.orderedInsert descRel a (sortDesc l)).filter _ = _
    rw [filter_orderedInsert_stable]
    by_cases h : a.2 = v <;> simp [List.filter_cons, h, ih]

/-- **C8 (counterexample).** Ties are not broken in favour of the
first-encountered group: in `cexRows` the groups "Z" and "A" both sum to
5 and "Z" occurs first in the data, yet `nlargest` keeps "A" (first in
the key-sorted grouped series) and drops "Z". -/
theorem top_products_tie_not_first_encountered :
    (Value.vstr "A", (5 : Int)) ∈ topProducts cexCols cexRows
      ∧ (Value.vstr "Z", (5 : Int)) ∉ topProducts cexCols cexRows
      ∧ groupSum cexRows "Product" "Qty" (Value.vstr "Z") =
          groupSum cexRows "Product" "Qty" (Value.vstr "A")
      ∧ List.findIdx (fun r => decide (getV r "Product" = Value.vstr "Z")) cexRows
          < List.findIdx (fun r => decide (getV r "Product" = Value.vstr "A")) cexRows := by
  decide

/-- **C8 (amended).** With resolved category and quantity columns, the
top-products table is `nlargest 10` of the key-sorted grouped sums: it
has `min (number of groups) 10` entries, its sums are descending, every
entry is a genuine group with that group's quantity sum, and ties are
broken by position in the key-sorted series (for each sum value the
sorted series preserves the series' subsequence with that value, so the
earliest groups in the grouped table survive truncation first). -/
theorem top_products_spec (cols : List String) (rows : List Row)
    (c : String) (ct : List String) (q : String) (qt : List String)
    (hc : categoryCols cols = c :: ct) (hq : qtyCols cols = q :: qt) :
    topProducts cols rows = nlargest 10 (groupBySum rows c q)
      ∧ (topProducts cols rows).length = min (groupKeys rows c).length 10
      ∧ (topProducts cols rows).Pairwise (fun a b => b.2 ≤ a.2)
      ∧ (∀ pr ∈ topProducts cols rows,
          pr.1 ∈ groupKeys rows c ∧ pr.2 = groupSum rows c q pr.1)
      ∧ ∀ v : Int,
          (sortDesc (groupBySum rows c q)).filter (fun pr => decide (pr.2 = v)) =
            (groupBySum rows c q).filter (fun pr => decide (pr.2 = v)) := by
  have htop : topProducts cols rows = nlargest 10 (groupBySum rows c q) := by
    unfold topProducts
    rw [hc, hq]
  have hperm := List.perm_insertionSort descRel (groupBySum rows c q)
  refine ⟨htop, ?_, ?_, ?_, fun v => sortDesc_stable v _⟩
  · rw [htop]
    unfold nlargest
    rw [List.length_take, Nat.min_comm]
    have : (sortDesc (groupBySum rows c q)).length = (groupBySum rows c q).length :=
      hperm.length_eq
    rw [this]
    unfold groupBySum
    rw [List.length_map]
  · rw [htop]
    unfold nlargest
    exact List.Pairwise.sublist (List.take_sublist _ _)
      (List.sorted_insertionSort descRel _)
  · rw [htop]
    intro pr hpr
    have hmem : pr ∈ groupBySum rows c q :=
      hperm.mem_iff.mp (List.mem_of_mem_take hpr)
    rcases List.mem_map.mp hmem with ⟨k, hk, rfl⟩
    exact ⟨hk, rfl⟩

/-- Scenario 4 at concrete data: twelve distinct products yield exactly
`min 12 10 = 10` rows. -/
theorem top_products_spec_witness :
    (topProducts ["Product", "Qty"] rows12).length =
        min (groupKeys rows12 "Product").length 10
      ∧ min (groupKeys rows12 "Product").length 10 = 10 :=
  ⟨(top_products_spec ["Product", "Qty"] rows12 "Product" [] "Qty" []
      (by decide) (by decide)).2.1,
    by decide⟩

/-! ## CSV export proofs -/

/-- **C2 (counterexample).** The downloaded file is not the filtered
view with the dataset's own columns: with a sales and a date-named
column present, the export carries the extra "Month" column that
chart 1 added to `df_filtered` in place. -/
theorem export_csv_not_plain_filtered_view :
    exportCsv dsExport [] ≠
      toCsv dsExport.columns (filterEngine dsExport.rows []) := by
  decide

/-- **C2 (amended).** The artifact is named `filtered_data.csv` and is
the filtered view serialized as comma-separated values with a header
row and no index column — with the dataset's own columns when no sales
column or no date-named column resolves, and with an extra trailing
"Month" column (the first date-named column's month period) when both
resolve. -/
theorem export_csv_characterization (d : Dataset) (spec : FilterSpec) :
    exportFileName = "filtered_data.csv"
      ∧ ((salesCols d.columns = [] ∨ dateNameCols d.columns = []) →
          exportCsv d spec = toCsv d.columns (filterEngine d.rows spec))
      ∧ ∀ s st dcol dt, salesCols d.columns = s :: st →
          dateNameCols d.columns = dcol :: dt → "Month" ∉ d.columns →
          exportCsv d spec =
            toCsv (d.columns ++ ["Month"])
              ((filterEngine d.rows spec).map (addMonth dcol)) := by
  refine ⟨rfl, ?_, ?_⟩
  · intro h
    unfold exportCsv exportColumnsRows
    rcases h with h | h <;> rw [h]
    cases salesCols d.columns <;> rfl
  · intro s st dcol dt hs hdn hnm
    unfold exportCsv exportColumnsRows
    rw [hs, hdn]
    simp [hnm]

theorem export_csv_characterization_witness :
    exportCsv dsExport [] =
      toCsv (dsExport.columns ++ ["Month"])
        ((filterEngine dsExport.rows []).map (addMonth "Date")) :=
  (export_csv_characterization dsExport []).2.2 "Total" [] "Date" []
    (by decide) (by decide) (by decide)

/-! ## Filter construction proofs -/

theorem all_congr_list {α : Type} (l : List α) (f g : α → Bool)
    (h : ∀ a ∈ l, f a = g a) : l.all f = l.all g := by
  induction l with
  | nil => rfl
  | cons a l ih =>
    rw [List.all_cons, List.all_cons, h a (List.mem_cons_self a l),
      ih (fun b hb => h b (List.mem_cons_of_mem a hb))]

theorem satisfies_congr (r r' : Row) (k : String) (p : FilterPred)
    (h : getV r k = getV r' k) : satisfies r k p = satisfies r' k p := by
  cases p <;> simp [satisfies, h]

/-- Every key the sidebar puts in the filter spec is one of the first
five categorical columns or a date column. -/
theorem buildFilterSpec_keys (d : Dataset) (sel : String → List Value)
    (dr : Option ((Nat × Nat × Nat) × (Nat × Nat × Nat)))
    (k : String) (p : FilterPred) (h : (k, p) ∈ buildFilterSpec d sel dr) :
    k ∈ (categoricalColsOf d).take 5 ∨ k ∈ dateColsOf d := by
  unfold buildFilterSpec at h
  rcases List.mem_append.mp h with h | h
  · left
    rcases List.mem_map.mp h with ⟨c', hc', heq⟩
    have : c' = k := congrArg Prod.fst heq
    rwa [this] at hc'
  · right
    rcases hdl : dateColsOf d with _ | ⟨dc, dtl⟩ <;> rw [hdl] at h
    · cases dr <;> simp at h
    · rcases dr with _ | ⟨lo, hi⟩
      · simp at h
      · have : k = dc := by
          have := List.mem_singleton.mp h
          exact congrArg Prod.fst this
        rw [this]
        exact List.mem_cons_self dc dtl

/-- **C10.** A categorical column beyond the fifth never joins the
filter spec, and the spec's verdict on a row ignores that column
entirely: two rows agreeing everywhere outside it pass or fail the
whole spec identically, so the column never restricts the filtered
view. -/
theorem extra_categorical_not_filtered (d : Dataset)
    (sel : String → List Value)
    (dr : Option ((Nat × Nat × Nat) × (Nat × Nat × Nat))) (c : String)
    (hc : c ∈ categoricalColsOf d) (h5 : c ∉ (categoricalColsOf d).take 5) :
    (∀ p : FilterPred, (c, p) ∉ buildFilterSpec d sel dr)
      ∧ ∀ r r' : Row, (∀ k, k ≠ c → getV r k = getV r' k) →
          passesAll (buildFilterSpec d sel dr) r
            = passesAll (buildFilterSpec d sel dr) r' := by
  have hcat : probeKind d c = ColKind.categorical := by
    have := (List.mem_filter.mp hc).2
    simpa using this
  have hkey : ∀ k p, (k, p) ∈ buildFilterSpec d sel dr → k ≠ c := by
    intro k p hkp heq
    subst heq
    rcases buildFilterSpec_keys d sel dr k p hkp with h | h
    · exact h5 h
    · have hdate : probeKind d k = ColKind.date := by
        have := (List.mem_filter.mp h).2
        simpa using this
      rw [hcat] at hdate
      exact absurd hdate (by decide)
  refine ⟨fun p hp => hkey c p hp rfl, ?_⟩
  intro r r' hagree
  unfold passesAll
  apply all_congr_list
  intro cp hcp
  exact satisfies_congr r r' cp.1 cp.2
    (hagree cp.1 (hkey cp.1 cp.2 (by simpa using hcp)))

theorem extra_categorical_not_filtered_witness :
    ("F", FilterPred.cat []) ∉ buildFilterSpec ds6 (fun _ => []) none :=
  (extra_categorical_not_filtered ds6 (fun _ => []) none "F"
      (by decide) (by decide)).1 (FilterPred.cat [])
